import Mathlib

/-
Verification of the deterministic validation core of SageFuzz
(sagefuzz_seedgen): shallow embedding of
  - workflow/validation.py      (scenario contract and entity validators)
  - dot/dot_graph.py            (graph ranking and path constraints)
  - the execution-sequence validator interface of
    workflow/packet_sequence_workflow.py

Python dynamic values are modelled by the mutual inductive family
PyVal / PyList / PyDict below. Python floats are modelled as exact
rationals; every numeric literal in the properties proved here is exactly
representable in IEEE-754 double precision, so the rational model agrees
with the source on those inputs. Feedback strings mirror the f-strings of
the source, except that quote characters around interpolated names are
omitted and numbers are rendered with toString.
-/

set_option maxRecDepth 8000

/-- Exact rational model of a Python float: numerator and positive
denominator, not necessarily reduced. Comparisons cross-multiply, so no
gcd normalization is ever needed. -/
structure PyRat : Type where
  num : Int
  den : Nat
deriving DecidableEq

def PyRat.ofInt (n : Int) : PyRat := ⟨n, 1⟩

/-- Value equality of two fractions (denominators are positive by
construction). -/
def ratEq (a b : PyRat) : Bool := a.num * (b.den : Int) = b.num * (a.den : Int)

def ratLt (a b : PyRat) : Bool := a.num * (b.den : Int) < b.num * (a.den : Int)

def ratLe (a b : PyRat) : Bool := a.num * (b.den : Int) ≤ b.num * (a.den : Int)

def ratAdd (a b : PyRat) : PyRat :=
  ⟨a.num * (b.den : Int) + b.num * (a.den : Int), a.den * b.den⟩

/-- Python float.is_integer. -/
def ratIsInt (a : PyRat) : Bool := a.num % (a.den : Int) = 0

/-- Python int() on an integral float (the division is exact when used). -/
def ratToInt (a : PyRat) : Int := a.num / (a.den : Int)

mutual

/-- Model of a dynamically typed Python value as used by the validators. -/
inductive PyVal : Type where
  | pynone : PyVal
  | pybool : Bool → PyVal
  | pyint : Int → PyVal
  | pyfloat : PyRat → PyVal
  | pystr : String → PyVal
  | pylist : PyList → PyVal
  | pydict : PyDict → PyVal

inductive PyList : Type where
  | nil : PyList
  | cons : PyVal → PyList → PyList

inductive PyDict : Type where
  | nil : PyDict
  | cons : String → PyVal → PyDict → PyDict

end

deriving instance DecidableEq for PyVal, PyList, PyDict

/-- Build a PyList from a Lean list (notation helper for examples). -/
def pyL : List PyVal → PyList
  | [] => .nil
  | v :: rest => .cons v (pyL rest)

/-- Build a PyDict from a Lean association list (notation helper). -/
def pyD : List (String × PyVal) → PyDict
  | [] => .nil
  | (k, v) :: rest => .cons k v (pyD rest)

/-- Lookup in a Python dict (dict.get; keys are unique in practice, the
first match is returned). -/
def dictGet : PyDict → String → Option PyVal
  | .nil, _ => none
  | .cons k v rest, key => if k = key then some v else dictGet rest key

/-- The entries of a PyDict in order, as a Lean list. -/
def dictEntries : PyDict → List (String × PyVal)
  | .nil => []
  | .cons k v rest => (k, v) :: dictEntries rest

/-- The elements of a PyList in order, as a Lean list. -/
def listElems : PyList → List PyVal
  | .nil => []
  | .cons v rest => v :: listElems rest

/-- Numeric view used by Python value equality: bool, int and float are
mutually comparable numbers. -/
def pyNum : PyVal → Option PyRat
  | .pybool b => some (if b then PyRat.ofInt 1 else PyRat.ofInt 0)
  | .pyint n => some (PyRat.ofInt n)
  | .pyfloat q => some q
  | _ => none

mutual

/-- Python == on values: numeric types compare by value, strings by text,
lists elementwise, dicts by length and pointwise-equal values per key. -/
def pyEq : PyVal → PyVal → Bool
  | .pynone, .pynone => true
  | .pystr s, .pystr t => s = t
  | .pylist xs, .pylist ys => pyEqList xs ys
  | .pydict xs, .pydict ys =>
    (dictEntries xs).length = (dictEntries ys).length && pyEqDictSub xs ys
  | a, b =>
    match pyNum a, pyNum b with
    | some x, some y => ratEq x y
    | _, _ => false

def pyEqList : PyList → PyList → Bool
  | .nil, .nil => true
  | .cons x xs, .cons y ys => pyEq x y && pyEqList xs ys
  | _, _ => false

def pyEqDictSub : PyDict → PyDict → Bool
  | .nil, _ => true
  | .cons k v rest, ys =>
    (match dictGet ys k with
     | some v2 => pyEq v v2
     | none => false) && pyEqDictSub rest ys

end

/-- Python str.strip character class (ASCII whitespace). -/
def isSpaceChar (c : Char) : Bool :=
  c = ' ' || c = '\t' || c = '\n' || c = '\r' || c = '\x0b' || c = '\x0c'

def trimChars (l : List Char) : List Char :=
  ((l.dropWhile isSpaceChar).reverse.dropWhile isSpaceChar).reverse

/-- Python str.strip. -/
def pyStrip (s : String) : String := String.mk (trimChars s.data)

/-- Python str.lower (ASCII). -/
def pyLower (s : String) : String := String.mk (s.data.map Char.toLower)

def isPrefixOfB : List Char → List Char → Bool
  | [], _ => true
  | _ :: _, [] => false
  | a :: as, b :: bs => a = b && isPrefixOfB as bs

def strContainsL (needle : List Char) : List Char → Bool
  | [] => isPrefixOfB needle []
  | c :: rest => isPrefixOfB needle (c :: rest) || strContainsL needle rest

/-- Python substring test: needle in hay. -/
def strContains (hay needle : String) : Bool := strContainsL needle.data hay.data

def strStartsWithB (s p : String) : Bool := isPrefixOfB p.data s.data

/-- Split a character list on a separator character. -/
def splitOnChar (c : Char) : List Char → List (List Char)
  | [] => [[]]
  | x :: xs =>
    let r := splitOnChar c xs
    if x = c then [] :: r
    else
      match r with
      | h :: t => (x :: h) :: t
      | [] => [[x]]

def digitsToNat (l : List Char) : Nat :=
  l.foldl (fun acc c => acc * 10 + (c.toNat - 48)) 0

def parseNatDigits (l : List Char) : Option Nat :=
  if l ≠ [] && l.all Char.isDigit then some (digitsToNat l) else none

def parseSignedExp (l : List Char) : Option Int :=
  match l with
  | '-' :: rest => (parseNatDigits rest).map (fun n => -(n : Int))
  | '+' :: rest => (parseNatDigits rest).map (fun n => (n : Int))
  | _ => (parseNatDigits l).map (fun n => (n : Int))

def parseMantissa (l : List Char) : Option PyRat :=
  match splitOnChar '.' l with
  | [ip] => (parseNatDigits ip).map (fun n => PyRat.ofInt n)
  | [ip, fp] =>
    if (ip ++ fp) ≠ [] && (ip ++ fp).all Char.isDigit then
      some ⟨(digitsToNat ip : Int) * (10 : Int) ^ fp.length + (digitsToNat fp : Int),
            (10 : Nat) ^ fp.length⟩
    else none
  | _ => none

def applyExp (q : PyRat) (ex : Int) : PyRat :=
  if 0 ≤ ex then ⟨q.num * (10 : Int) ^ ex.toNat, q.den⟩
  else ⟨q.num, q.den * (10 : Nat) ^ ex.natAbs⟩

def applySign (sign : Bool) (q : PyRat) : PyRat :=
  if sign then ⟨-q.num, q.den⟩ else q

/-- Model of Python float(raw) on finite decimal literals:
optional sign, digits with optional fraction part, optional exponent.
The inf/nan spellings and underscore digit separators are outside the
model (treated as unparseable); values are kept as exact rationals. -/
def parseDecimal (l : List Char) : Option PyRat :=
  let signed : Bool × List Char :=
    match l with
    | '-' :: rest => (true, rest)
    | '+' :: rest => (false, rest)
    | _ => (false, l)
  match splitOnChar 'e' signed.2 with
  | [m] => (parseMantissa m).map (fun q => applySign signed.1 q)
  | [m, e] =>
    match parseMantissa m, parseSignedExp e with
    | some q, some ex => some (applySign signed.1 (applyExp q ex))
    | _, _ => none
  | _ => none

def hexDigitVal (c : Char) : Option Nat :=
  if c.isDigit then some (c.toNat - 48)
  else if 'a' ≤ c && c ≤ 'f' then some (c.toNat - 87)
  else none

def parseHexNat : List Char → Option Nat
  | [] => none
  | l =>
    l.foldl
      (fun acc c =>
        match acc, hexDigitVal c with
        | some a, some d => some (a * 16 + d)
        | _, _ => none)
      (some 0)

/-- Embedding of validation._to_number: bools and numbers pass through,
strings are stripped, lowercased and parsed as decimal or 0x hexadecimal;
anything else is unresolvable. -/
def toNumber : PyVal → Option PyRat
  | .pybool b => some (if b then PyRat.ofInt 1 else PyRat.ofInt 0)
  | .pyint n => some (PyRat.ofInt n)
  | .pyfloat q => some q
  | .pystr s =>
    let raw := pyLower (pyStrip s)
    if raw = "" then none
    else if strStartsWithB raw "0x" then
      (parseHexNat (raw.data.drop 2)).map (fun n => PyRat.ofInt n)
    else parseDecimal raw.data
  | _ => none

/-- Embedding of validation._coerce_literal: strings are stripped and, when
numeric, replaced by an int (when the value is integral) or a float. -/
def coerceLiteral : PyVal → PyVal
  | .pystr s =>
    let normalized := pyStrip s
    if normalized = "" then .pystr normalized
    else
      match toNumber (.pystr normalized) with
      | some q => if ratIsInt q then .pyint (ratToInt q) else .pyfloat q
      | none => .pystr normalized
  | v => v

/-- Embedding of validation._compare_numeric. -/
def compareNumeric (l r : PyRat) (op : String) : Bool :=
  if op = "eq" then ratEq l r
  else if op = "neq" then !(ratEq l r)
  else if op = "gt" then ratLt r l
  else if op = "lt" then ratLt l r
  else if op = "ge" then ratLe r l
  else if op = "le" then ratLe l r
  else false

/-- The contains branch of validation._expectation_matches. -/
def containsCheck (actual needle : PyVal) : Bool :=
  match needle with
  | .pystr n =>
    match actual with
    | .pystr a => strContains a n
    | _ => false
  | .pylist items =>
    match actual with
    | .pystr a =>
      (listElems items).all (fun it =>
        match it with
        | .pystr n => strContains a n
        | _ => false)
    | _ => false
  | _ => false

/-- The not_contains branch of validation._expectation_matches. -/
def notContainsCheck (actual needle : PyVal) : Bool :=
  match needle with
  | .pystr n =>
    match actual with
    | .pystr a => !(strContains a n)
    | _ => false
  | .pylist items =>
    match actual with
    | .pystr a =>
      (listElems items).all (fun it =>
        match it with
        | .pystr n => !(strContains a n)
        | _ => false)
    | _ => false
  | _ => false

/-- The one_of branch of validation._expectation_matches. -/
def oneOfCheck (actual cand : PyVal) : Bool :=
  match cand with
  | .pylist items =>
    (listElems items).any (fun it => pyEq (coerceLiteral actual) (coerceLiteral it))
  | _ => false

mutual

/-- Embedding of validation._expectation_matches: a dict expectation is a
conjunction of its recognized keys (all unrecognized keys are ignored),
anything else is a coerced literal comparison. -/
def expectationMatches : PyVal → PyVal → Bool
  | actual, .pydict m =>
    emRecKey actual "equals" m &&
    emRecKey actual "eq" m &&
    (match dictGet m "contains" with
     | some v => containsCheck actual v
     | none => true) &&
    (match dictGet m "not_contains" with
     | some v => notContainsCheck actual v
     | none => true) &&
    (match dictGet m "one_of" with
     | some v => oneOfCheck actual v
     | none => true)
  | actual, expected => pyEq (coerceLiteral actual) (coerceLiteral expected)

/-- Recursive dict-key dispatch: if key is present, the first bound value
must match recursively (the structural twin of dictGet followed by a
recursive _expectation_matches call). -/
def emRecKey : PyVal → String → PyDict → Bool
  | _, _, .nil => true
  | actual, key, .cons k v rest =>
    if k = key then expectationMatches actual v else emRecKey actual key rest

end

/-- First non-none element of a list of options (first failing check wins). -/
def firstSome {α : Type} : List (Option α) → Option α
  | [] => none
  | some a :: _ => some a
  | none :: rest => firstSome rest

/-- Verdict type of every validator (schemas.CriticResult). -/
structure CriticResult : Type where
  status : String
  feedback : String
deriving DecidableEq

/-- schemas.PacketStepSpec. -/
structure PacketStepSpec : Type where
  tx_role : String
  rx_role : Option String := none
  protocol_stack : List String := []
  field_expectations : PyDict := .nil

/-- schemas.FieldRelationSpec. The step fields are 1-based per schema
(pydantic ge=1); right_delta is a float in the source. -/
structure FieldRelationSpec : Type where
  left_step : Nat
  left_field : String
  op : String := "eq"
  right_step : Nat
  right_field : String
  right_delta : PyRat := PyRat.ofInt 0

/-- schemas.SequenceScenarioSpec. The source field named scenario is
rendered here as scenarioTag. -/
structure SequenceScenarioSpec : Type where
  scenarioTag : String
  kind : String := "neutral"
  required : Bool := true
  steps : List PacketStepSpec := []
  field_relations : List FieldRelationSpec := []
  allow_additional_packets : Bool := true

/-- schemas.PacketSpec. The source field named scenario is rendered here
as scenarioTag. -/
structure PacketSpec : Type where
  packet_id : Int
  tx_host : String
  scenarioTag : Option String := none
  protocol_stack : List String
  fields : PyDict

/-- schemas.TaskSpec (the fields read by the validators). -/
structure TaskSpec : Type where
  task_id : String := ""
  task_description : String := ""
  feature_under_test : String := ""
  role_bindings : List (String × String) := []
  sequence_contract : List SequenceScenarioSpec := []
  require_positive_and_negative : Bool := true

/-- runtime.program_context.ProgramContext, restricted to the three
indexes the validators read (host_info, tables_by_name, actions_by_name);
table and action schemas are kept as raw dynamic values exactly as the
source treats them. -/
structure ProgramContext : Type where
  host_info : List (String × PyDict) := []
  tables_by_name : List (String × PyVal) := []
  actions_by_name : List (String × PyVal) := []

def lookupStr : List (String × String) → String → Option String
  | [], _ => none
  | (k, v) :: rest, key => if k = key then some v else lookupStr rest key

def lookupHost : List (String × PyDict) → String → Option PyDict
  | [], _ => none
  | (k, v) :: rest, key => if k = key then some v else lookupHost rest key

def lookupPy : List (String × PyVal) → String → Option PyVal
  | [], _ => none
  | (k, v) :: rest, key => if k = key then some v else lookupPy rest key

/-- Python truthiness of an optional scenario tag: None and the empty
string both fall back to the default (`packet.scenario or "default"`). -/
def pyOrDefault (o : Option String) (d : String) : String :=
  match o with
  | none => d
  | some s => if s = "" then d else s

/-- Embedding of validation._scenario_packets. -/
def scenarioPackets (packet_sequence : List PacketSpec) (scen : String) : List PacketSpec :=
  packet_sequence.filter (fun p => pyOrDefault p.scenarioTag "default" = scen)

def parseOctet (l : List Char) : Option Nat :=
  if l ≠ [] && l.all Char.isDigit && (l.length = 1 || l.head? ≠ some '0')
      && digitsToNat l ≤ 255 then
    some (digitsToNat l)
  else none

def parseIPv4Addr (l : List Char) : Option String :=
  match splitOnChar '.' l with
  | [a, b, c, d] =>
    match parseOctet a, parseOctet b, parseOctet c, parseOctet d with
    | some x, some y, some z, some w =>
      some (toString x ++ "." ++ toString y ++ "." ++ toString z ++ "." ++ toString w)
    | _, _, _, _ => none
  | _ => none

def parsePrefixLen (l : List Char) : Option Nat :=
  if l ≠ [] && l.all Char.isDigit && (l.length = 1 || l.head? ≠ some '0')
      && digitsToNat l ≤ 32 then
    some (digitsToNat l)
  else none

/-- Embedding of validation._normalize_ipv4, modelled for IPv4 dotted-quad
strings with an optional integer /prefix suffix; the canonical form is the
dotted quad of the parsed octets. IPv6 and netmask-style suffixes are
outside the model (treated as unparseable, like any other bad input). -/
def normalizeIPv4 (v : PyVal) : Option String :=
  match v with
  | .pystr s =>
    let raw := pyStrip s
    if raw = "" then none
    else
      match splitOnChar '/' raw.data with
      | [addr] => parseIPv4Addr addr
      | [addr, pfx] =>
        match parsePrefixLen pfx with
        | some _ => parseIPv4Addr addr
        | none => none
      | _ => none
  | _ => none

/-- host_info lookup with empty-dict default
(ctx.host_info.get(expected_rx_host, dict())). -/
def hostDict (ctx : ProgramContext) (host : String) : PyDict :=
  (lookupHost ctx.host_info host).getD .nil

/-- The normalized ip entry of a host record. -/
def expectedIpOf (ctx : ProgramContext) (host : String) : Option String :=
  normalizeIPv4 ((dictGet (hostDict ctx host) "ip").getD .pynone)

/-- The normalized IPv4.dst field of a packet. -/
def packetDstIp (packet : PacketSpec) : Option String :=
  normalizeIPv4 ((dictGet packet.fields "IPv4.dst").getD .pynone)

/-- The field_expectations loop of a step check (first violated
expectation wins). -/
def fieldExpectationsCheck (scen : String) (idx : Nat) (step : PacketStepSpec)
    (packet : PacketSpec) : Option CriticResult :=
  firstSome ((dictEntries step.field_expectations).map (fun fe =>
    if expectationMatches ((dictGet packet.fields fe.1).getD .pynone) fe.2 then none
    else some ⟨"FAIL", "Scenario " ++ scen ++ " step " ++ toString idx ++
      ": field " ++ fe.1 ++ " violates expectation."⟩))

/-- The receiver-side checks of a step: IPv4.dst against the bound host ip
when both normalize, then Ethernet.dst against the host mac
case-insensitively when both are strings. -/
def rxChecks (ctx : ProgramContext) (scen : String) (idx : Nat) (step : PacketStepSpec)
    (packet : PacketSpec) (rxr expected_rx_host : String) : Option CriticResult :=
  if (expectedIpOf ctx expected_rx_host).isSome ∧ (packetDstIp packet).isSome ∧
      packetDstIp packet ≠ expectedIpOf ctx expected_rx_host then
    some ⟨"FAIL", "Scenario " ++ scen ++ " step " ++ toString idx ++
      ": IPv4.dst must target role " ++ rxr ++ " host " ++ expected_rx_host ++ "."⟩
  else
    match dictGet (hostDict ctx expected_rx_host) "mac", dictGet packet.fields "Ethernet.dst" with
    | some (.pystr expected_mac), some (.pystr packet_dst_mac) =>
      if pyLower packet_dst_mac ≠ pyLower expected_mac then
        some ⟨"FAIL", "Scenario " ++ scen ++ " step " ++ toString idx ++
          ": Ethernet.dst must target role " ++ rxr ++ " host " ++ expected_rx_host ++ "."⟩
      else fieldExpectationsCheck scen idx step packet
    | _, _ => fieldExpectationsCheck scen idx step packet

/-- One step check of validation._validate_scenario_contract (the body of
the enumerate(contract.steps, 1) loop, first failure returned). -/
def stepCheck (ctx : ProgramContext) (role_bindings : List (String × String))
    (scen : String) (idx : Nat) (step : PacketStepSpec) (packet : PacketSpec) :
    Option CriticResult :=
  match lookupStr role_bindings step.tx_role with
  | none =>
    some ⟨"FAIL", "Scenario " ++ scen ++ " step " ++ toString idx ++
      ": unknown tx_role " ++ step.tx_role ++ "."⟩
  | some expected_tx_host =>
    if packet.tx_host ≠ expected_tx_host then
      some ⟨"FAIL", "Scenario " ++ scen ++ " step " ++ toString idx ++
        ": tx_host must be " ++ expected_tx_host ++ " for role " ++ step.tx_role ++
        ", got " ++ packet.tx_host ++ "."⟩
    else if step.protocol_stack ≠ [] ∧ packet.protocol_stack ≠ step.protocol_stack then
      some ⟨"FAIL", "Scenario " ++ scen ++ " step " ++ toString idx ++
        ": protocol_stack mismatch."⟩
    else
      match step.rx_role with
      | some rxr =>
        (match lookupStr role_bindings rxr with
         | none =>
           some ⟨"FAIL", "Scenario " ++ scen ++ " step " ++ toString idx ++
             ": unknown rx_role " ++ rxr ++ "."⟩
         | some expected_rx_host =>
           rxChecks ctx scen idx step packet rxr expected_rx_host)
      | none => fieldExpectationsCheck scen idx step packet

/-- Dummy packet used only to give the guarded indexing a total type (the
source never indexes out of range because of the preceding bound check;
relation step indices are at least 1 per schema). -/
def dummyPacket : PacketSpec := ⟨0, "", none, [], .nil⟩

/-- Left operand of a field relation as resolved by the source. -/
def relLeftNum (sp : List PacketSpec) (rel : FieldRelationSpec) : Option PyRat :=
  toNumber ((dictGet (sp.getD (rel.left_step - 1) dummyPacket).fields rel.left_field).getD .pynone)

/-- Right operand of a field relation as resolved by the source. -/
def relRightNum (sp : List PacketSpec) (rel : FieldRelationSpec) : Option PyRat :=
  toNumber ((dictGet (sp.getD (rel.right_step - 1) dummyPacket).fields rel.right_field).getD .pynone)

/-- One relation check of validation._validate_scenario_contract (the body
of the contract.field_relations loop). -/
def relationCheck (scen : String) (sp : List PacketSpec) (rel : FieldRelationSpec) :
    Option CriticResult :=
  if rel.left_step > sp.length ∨ rel.right_step > sp.length then
    some ⟨"FAIL", "Scenario " ++ scen ++ " relation references out-of-range step (left=" ++
      toString rel.left_step ++ ", right=" ++ toString rel.right_step ++ ")."⟩
  else
    match relLeftNum sp rel, relRightNum sp rel with
    | some left_value, some right_value =>
      if compareNumeric left_value (ratAdd right_value rel.right_delta) rel.op then none
      else
        some ⟨"FAIL", "Scenario " ++ scen ++ " relation failed: step " ++
          toString rel.left_step ++ "." ++ rel.left_field ++ " " ++ rel.op ++ " step " ++
          toString rel.right_step ++ "." ++ rel.right_field ++ " + delta."⟩
    | _, _ =>
      some ⟨"FAIL", "Scenario " ++ scen ++ " relation requires numeric fields " ++
        rel.left_field ++ "/" ++ rel.right_field ++ "."⟩

/-- Pair the 1-based step index, step spec and the matching packet
(scenario_packets[idx-1], well defined because the packet count was
checked to be at least the step count). -/
def zipSteps : Nat → List PacketStepSpec → List PacketSpec →
    List (Nat × PacketStepSpec × PacketSpec)
  | _, [], _ => []
  | _, _, [] => []
  | i, st :: sts, p :: ps => (i, st, p) :: zipSteps (i + 1) sts ps

/-- Embedding of validation._validate_scenario_contract: none means the
scenario raised no objection, some r is the first failure. -/
def validateScenarioContract (ctx : ProgramContext) (role_bindings : List (String × String))
    (packet_sequence : List PacketSpec) (contract : SequenceScenarioSpec) :
    Option CriticResult :=
  if (scenarioPackets packet_sequence contract.scenarioTag).isEmpty ∧ contract.required then
    some ⟨"FAIL", "Missing required scenario " ++ contract.scenarioTag ++ "."⟩
  else if (scenarioPackets packet_sequence contract.scenarioTag).isEmpty then none
  else if (scenarioPackets packet_sequence contract.scenarioTag).length <
      contract.steps.length then
    some ⟨"FAIL", "Scenario " ++ contract.scenarioTag ++ " has " ++
      toString (scenarioPackets packet_sequence contract.scenarioTag).length ++
      " packet(s), but contract requires at least " ++ toString contract.steps.length ++
      " step(s)."⟩
  else if ¬contract.allow_additional_packets ∧
      (scenarioPackets packet_sequence contract.scenarioTag).length ≠
        contract.steps.length then
    some ⟨"FAIL", "Scenario " ++ contract.scenarioTag ++ " must have exactly " ++
      toString contract.steps.length ++ " packet(s); got " ++
      toString (scenarioPackets packet_sequence contract.scenarioTag).length ++ "."⟩
  else
    match firstSome ((zipSteps 1 contract.steps
        (scenarioPackets packet_sequence contract.scenarioTag)).map (fun t =>
        stepCheck ctx role_bindings contract.scenarioTag t.1 t.2.1 t.2.2)) with
    | some r => some r
    | none =>
      firstSome (contract.field_relations.map
        (relationCheck contract.scenarioTag (scenarioPackets packet_sequence contract.scenarioTag)))

/-- Embedding of validation.validate_packet_sequence_contract. -/
def validatePacketSequenceContract (ctx : ProgramContext) (task : TaskSpec)
    (packet_sequence : List PacketSpec) : CriticResult :=
  if packet_sequence.isEmpty then ⟨"FAIL", "packet_sequence is empty"⟩
  else
    match firstSome (packet_sequence.map (fun p =>
        if (lookupHost ctx.host_info p.tx_host).isNone then
          some (⟨"FAIL", "packet_id " ++ toString p.packet_id ++ ": tx_host " ++
            p.tx_host ++ " not in topology hosts."⟩ : CriticResult)
        else none)) with
    | some r => r
    | none =>
      if task.role_bindings.isEmpty then ⟨"FAIL", "task.role_bindings is empty."⟩
      else
        match firstSome (task.role_bindings.map (fun rb =>
            if (lookupHost ctx.host_info rb.2).isNone then
              some (⟨"FAIL", "task.role_bindings[" ++ rb.1 ++ "] references unknown host " ++
                rb.2 ++ "."⟩ : CriticResult)
            else none)) with
        | some r => r
        | none =>
          if task.sequence_contract.isEmpty then ⟨"FAIL", "task.sequence_contract is empty."⟩
          else if task.require_positive_and_negative ∧
              (task.sequence_contract.filter (fun c => c.required ∧ c.kind = "positive")).isEmpty then
            ⟨"FAIL", "task.require_positive_and_negative=true, but sequence_contract has no required positive scenario."⟩
          else if task.require_positive_and_negative ∧
              (task.sequence_contract.filter (fun c => c.required ∧ c.kind = "negative")).isEmpty then
            ⟨"FAIL", "task.require_positive_and_negative=true, but sequence_contract has no required negative scenario."⟩
          else
            match firstSome (task.sequence_contract.map
                (validateScenarioContract ctx task.role_bindings packet_sequence)) with
            | some r => r
            | none =>
              if task.require_positive_and_negative ∧
                  ¬((packet_sequence.map (fun p => pyOrDefault p.scenarioTag "default")).any
                      (fun scen => lookupStr ((task.sequence_contract.map
                        (fun c => (c.scenarioTag, c.kind))).reverse) scen = some "positive") ∧
                    (packet_sequence.map (fun p => pyOrDefault p.scenarioTag "default")).any
                      (fun scen => lookupStr ((task.sequence_contract.map
                        (fun c => (c.scenarioTag, c.kind))).reverse) scen = some "negative")) then
                ⟨"FAIL", "packet_sequence must include both positive and negative scenarios when task.require_positive_and_negative=true."⟩
              else ⟨"PASS", "packet_sequence satisfies task.sequence_contract."⟩

/-- schemas.TableRule. -/
structure TableRule : Type where
  table_name : String
  match_type : String
  match_keys : PyDict := .nil
  action_name : String
  action_data : PyDict := .nil
  priority : Option Int := none

/-- Membership-preserving set insertion (Python set add; the model keeps
sets as duplicate-free lists, only membership and sorted views are used). -/
def addStr (l : List String) (s : String) : List String :=
  if l.contains s then l else l ++ [s]

def unionStr (l : List String) (other : List String) : List String :=
  other.foldl addStr l

/-- Stable insertion sort on strings (Python sorted). -/
def insertStr (a : String) : List String → List String
  | [] => [a]
  | b :: bs => if a ≤ b then a :: b :: bs else b :: insertStr a bs

def sortStrs : List String → List String
  | [] => []
  | a :: as => insertStr a (sortStrs as)

/-- Embedding of validation._extract_packet_destination_ips. -/
def extractPacketDestinationIps (packet_sequence : List PacketSpec) : List String :=
  packet_sequence.foldl
    (fun acc p =>
      if p.protocol_stack.contains "IPv4" then
        match normalizeIPv4 ((dictGet p.fields "IPv4.dst").getD .pynone) with
        | some ip => addStr acc ip
        | none => acc
      else acc)
    []

/-- The destination address recognized in one match-key value: an exact
string, a nonempty [value, prefix] pair, or a dict with a value/ip/addr
key (validation._extract_rule_destination_ips inner cases). -/
def ruleEntryIp (value : PyVal) : Option String :=
  match value with
  | .pystr s => normalizeIPv4 (.pystr s)
  | .pylist (.cons v _) => normalizeIPv4 v
  | .pylist .nil => none
  | .pydict d =>
    match normalizeIPv4 ((dictGet d "value").getD .pynone) with
    | some ip => some ip
    | none =>
      match normalizeIPv4 ((dictGet d "ip").getD .pynone) with
      | some ip => some ip
      | none => normalizeIPv4 ((dictGet d "addr").getD .pynone)
  | _ => none

/-- Embedding of validation._extract_rule_destination_ips. -/
def extractRuleDestinationIps (rule : TableRule) : List String :=
  (dictEntries rule.match_keys).foldl
    (fun acc kv =>
      if strContains (pyLower kv.1) "dstaddr" ∨ strContains (pyLower kv.1) "ipv4.dst" then
        match ruleEntryIp kv.2 with
        | some ip => addStr acc ip
        | none => acc
      else acc)
    []

/-- Embedding of validation._normalize_table_key_field. -/
def normalizeTableKeyField (key : PyVal) : Option String :=
  match key with
  | .pydict d =>
    match dictGet d "target" with
    | some (.pylist (.cons (.pystr a) (.cons (.pystr b) .nil))) => some ("hdr." ++ a ++ "." ++ b)
    | some (.pystr t) => some t
    | _ => none
  | _ => none

/-- Embedding of validation._normalize_match_type. -/
def normalizeMatchType (value : PyVal) : Option String :=
  match value with
  | .pystr s =>
    let normalized := pyLower (pyStrip s)
    if normalized = "" then none else some normalized
  | _ => none

/-- Embedding of validation._collect_table_match_types (insertion-ordered
duplicate-free list standing for the Python set). -/
def collectTableMatchTypes (table_keys : PyVal) : List String :=
  match table_keys with
  | .pylist items =>
    (listElems items).foldl
      (fun acc item =>
        match item with
        | .pydict d =>
          match normalizeMatchType ((dictGet d "match_type").getD .pynone) with
          | some mt => addStr acc mt
          | none => acc
        | _ => acc)
      []
  | _ => []

def isTRO (t : String) : Bool := t = "ternary" || t = "range" || t = "optional"

/-- Python `action_name in table_actions` (list membership by ==). -/
def pyListContainsStr (l : PyVal) (s : String) : Bool :=
  match l with
  | .pylist items => (listElems items).any (fun v => pyEq v (.pystr s))
  | _ => false

/-- Names of action parameters required by an action schema but missing
from the rule action_data, in declaration order. -/
def missingActionParams (action : PyDict) (rule : TableRule) : List String :=
  match (dictGet action "runtime_data").getD (.pylist .nil) with
  | .pylist items =>
    ((listElems items).filterMap (fun it =>
      match it with
      | .pydict d => some ((dictGet d "name").getD .pynone)
      | _ => none)).filterMap (fun p =>
        match p with
        | .pystr s => if (dictGet rule.action_data s).isNone then some s else none
        | _ => none)
  | _ => []

/-- Required match-key fields of a table key list that are absent from the
rule match_keys, sorted (set comprehension plus sorted in the source). -/
def missingKeyFields (table_keys : PyVal) (rule : TableRule) : List String :=
  match table_keys with
  | .pylist items =>
    sortStrs ((((listElems items).filterMap normalizeTableKeyField).foldl addStr []).filter
      (fun f => (dictGet rule.match_keys f).isNone))
  | _ => []

/-- The key list of a table schema (table.get("key", [])). -/
def tableKeysOf (table : PyDict) : PyVal := (dictGet table "key").getD (.pylist .nil)

/-- The schema match types of a table (set built over the key list). -/
def tableMatchTypes (table : PyDict) : List String :=
  collectTableMatchTypes (tableKeysOf table)

/-- Whether the declared rule match type is compatible with the schema
match types (vacuously when the schema states none). -/
def matchTypeCompatible (table : PyDict) (rule : TableRule) : Bool :=
  (tableMatchTypes table).isEmpty ||
    (match normalizeMatchType (.pystr rule.match_type) with
     | some mt => (tableMatchTypes table).contains mt
     | none => false)

/-- One entity check of validation.validate_control_plane_entities (the
body of the enumerate(entities, 1) loop, first failure returned). -/
def checkEntity (ctx : ProgramContext) (idx : Nat) (rule : TableRule) : Option CriticResult :=
  match lookupPy ctx.tables_by_name rule.table_name with
  | some (.pydict table) =>
    if ¬pyListContainsStr ((dictGet table "actions").getD (.pylist .nil)) rule.action_name then
      some ⟨"FAIL", "entity[" ++ toString idx ++ "]: action " ++ rule.action_name ++
        " is not allowed by table " ++ rule.table_name ++ "."⟩
    else if ¬matchTypeCompatible table rule then
      some ⟨"FAIL", "entity[" ++ toString idx ++ "]: match_type " ++ rule.match_type ++
        " is incompatible with table " ++ rule.table_name ++ " key match type(s) " ++
        String.intercalate ", " (sortStrs (tableMatchTypes table)) ++ "."⟩
    else if ((tableMatchTypes table).any isTRO) ∧ rule.priority = none then
      some ⟨"FAIL", "entity[" ++ toString idx ++ "]: table " ++ rule.table_name ++
        " requires priority for ternary/range/optional matches."⟩
    else if ¬(missingKeyFields (tableKeysOf table) rule).isEmpty then
      some ⟨"FAIL", "entity[" ++ toString idx ++ "]: missing required match key(s) " ++
        String.intercalate ", " (missingKeyFields (tableKeysOf table) rule) ++ " for table " ++
        rule.table_name ++ "."⟩
    else
      match lookupPy ctx.actions_by_name rule.action_name with
      | some (.pydict action) =>
        if ¬(missingActionParams action rule).isEmpty then
          some ⟨"FAIL", "entity[" ++ toString idx ++ "]: missing action_data parameter(s) " ++
            String.intercalate ", " (missingActionParams action rule) ++ " for action " ++
            rule.action_name ++ "."⟩
        else none
      | _ => none
  | _ =>
    some ⟨"FAIL", "entity[" ++ toString idx ++ "]: unknown table " ++ rule.table_name ++ "."⟩

def enumFrom {α : Type} : Nat → List α → List (Nat × α)
  | _, [] => []
  | i, a :: as => (i, a) :: enumFrom (i + 1) as

/-- Union of destination addresses matched by the entities (the
covered_ips accumulation of validate_control_plane_entities). -/
def coveredIps (entities : List TableRule) : List String :=
  entities.foldl (fun acc r => unionStr acc (extractRuleDestinationIps r)) []

/-- Packet destination addresses covered by no entity, sorted (the
uncovered list of validate_control_plane_entities). -/
def uncoveredIpsOf (packet_sequence : List PacketSpec) (entities : List TableRule) :
    List String :=
  sortStrs ((extractPacketDestinationIps packet_sequence).filter
    (fun ip => ¬(coveredIps entities).contains ip))

/-- Feedback of the coverage failure. -/
def uncoveredFeedback (uncovered : List String) : String :=
  "entities do not cover packet_sequence destination IP(s): " ++
    String.intercalate ", " uncovered ++ "."

/-- Role-binding hosts missing from topology (sorted role:host labels). -/
def missingRoleHosts (ctx : ProgramContext) (task : TaskSpec) : List String :=
  sortStrs ((task.role_bindings.filter
    (fun rb => (lookupHost ctx.host_info rb.2).isNone)).map (fun rb => rb.1 ++ ":" ++ rb.2))

/-- The role-binding epilogue of validate_control_plane_entities. -/
def cpeRoleCheck (ctx : ProgramContext) (task : TaskSpec) : CriticResult :=
  if task.role_bindings.isEmpty then ⟨"FAIL", "task.role_bindings is empty."⟩
  else if ¬(missingRoleHosts ctx task).isEmpty then
    ⟨"FAIL", "Task role binding host(s) are not present in topology: " ++
      String.intercalate ", " (missingRoleHosts ctx task) ++ "."⟩
  else ⟨"PASS", "Control-plane entities are structurally valid and aligned with packet_sequence."⟩

/-- Embedding of validation.validate_control_plane_entities. -/
def validateControlPlaneEntities (ctx : ProgramContext) (task : TaskSpec)
    (packet_sequence : List PacketSpec) (entities : List TableRule) : CriticResult :=
  if entities.isEmpty then
    ⟨"FAIL", "entities is empty; at least one table rule is required."⟩
  else
    match firstSome ((enumFrom 1 entities).map (fun p => checkEntity ctx p.1 p.2)) with
    | some r => r
    | none =>
      if ¬(extractPacketDestinationIps packet_sequence).isEmpty then
        if ¬(uncoveredIpsOf packet_sequence entities).isEmpty then
          ⟨"FAIL", uncoveredFeedback (uncoveredIpsOf packet_sequence entities)⟩
        else cpeRoleCheck ctx task
      else cpeRoleCheck ctx task

/-- schemas.ControlPlaneOperation (the fields the execution validator
reads). -/
structure ControlPlaneOperation : Type where
  order : Int
  operation_type : String
  target : String := ""
  parameters : PyDict := .nil
  entity_index : Option Int := none
  expected_effect : Option String := none

/-- Modelled from the spec: schemas.ExecutionOperation is imported by the
workflow and its tests but is not present in the source tree; its shape
follows section 3 of the specification and the test fixtures: a strictly
ordered timeline entry that is either a control-plane operation reference
or a send_packet step. -/
structure ExecutionOperation : Type where
  order : Int
  operation_type : String
  target : Option String := none
  packet_id : Option Int := none
  entity_index : Option Int := none
  control_plane_order : Option Int := none

/-- Ordered-subsequence test used for the control-plane relative-order
requirement. -/
def orderedSub : List Int → List Int → Bool
  | [], _ => true
  | _ :: _, [] => false
  | a :: as, b :: bs => if a = b then orderedSub as bs else orderedSub (a :: as) bs

/-- The packet ids of the send_packet steps of a timeline, in order. -/
def sendPacketIds (execution_sequence : List ExecutionOperation) : List (Option Int) :=
  (execution_sequence.filter (fun op => op.operation_type = "send_packet")).map
    (fun op => op.packet_id)

/-- Modelled from the spec: workflow.validation.validate_execution_sequence
is imported by the workflow and exercised by the tests but is not present
in the source tree. Per section 4.7 of the specification it verifies that
the send_packet steps cover the candidate packet sequence exactly once
each and in the same order (by packet id), failing with a
"send_packet order/coverage mismatch" message otherwise, and that the
control-plane operations appear in the timeline in the same relative
order as in control_plane_sequence. -/
def validate_execution_sequence (packet_sequence : List PacketSpec)
    (entities : List TableRule) (control_plane_sequence : List ControlPlaneOperation)
    (execution_sequence : List ExecutionOperation) : CriticResult :=
  if sendPacketIds execution_sequence ≠ packet_sequence.map (fun p => some p.packet_id) then
    ⟨"FAIL", "send_packet order/coverage mismatch: send_packet steps must match packet_sequence packet ids exactly and in order."⟩
  else if ¬orderedSub (control_plane_sequence.map (fun op => op.order))
      (execution_sequence.filterMap (fun op => op.control_plane_order)) then
    ⟨"FAIL", "control-plane operations are missing or out of relative order in execution_sequence."⟩
  else ⟨"PASS", "execution_sequence is a valid interleaving of control-plane operations and packet sends."⟩

/-- dot_graph.DotNode. -/
structure DotNode : Type where
  node_id : String
  label : String
  shape : Option String := none

/-- dot_graph.DotEdge. -/
structure DotEdge : Type where
  src : String
  dst : String
  label : String := ""

/-- dot_graph.DotGraph: nodes keyed by id in insertion order, edge list;
the adjacency map is derived from the edge list on demand. -/
structure DotGraph : Type where
  name : String := ""
  nodes : List (String × DotNode) := []
  edges : List DotEdge := []

/-- DotGraph.out_edges (the insertion-ordered adjacency built in the
constructor is the order-preserving filter of the edge list). -/
def outEdges (g : DotGraph) (nid : String) : List DotEdge :=
  g.edges.filter (fun e => e.src = nid)

/-- DotGraph.find_node_id_by_label. -/
def findNodeIdByLabel (g : DotGraph) (label : String) : Option String :=
  (g.nodes.find? (fun p => p.2.label = label)).map (fun p => p.1)

/-- DotGraph.get_start_node_id. -/
def getStartNodeId (g : DotGraph) : Option String := findNodeIdByLabel g "__START__"

/-- DotGraph.get_node. -/
def getNode (g : DotGraph) (nid : String) : Option DotNode :=
  (g.nodes.find? (fun p => p.1 = nid)).map (fun p => p.2)

def lookupNat : List (String × Nat) → String → Option Nat
  | [], _ => none
  | (k, v) :: rest, key => if k = key then some v else lookupNat rest key

/-- All node identifiers a ranked-tables traversal can ever visit: the
node keys and every edge destination (the start node is a node key). -/
def univIds (g : DotGraph) : List String :=
  g.nodes.map (fun p => p.1) ++ g.edges.map (fun e => e.dst)

/-- How many identifiers are not yet on the visiting stack; the measure
that shrinks when the dfs recursion descends. -/
def remainingCount (g : DotGraph) (visiting : List String) : Nat :=
  ((univIds g).filter (fun x => !(visiting.contains x))).length

mutual

/-- Fuel-indexed embedding of the dfs closure of DotGraph.ranked_tables:
memoized longest-path depth with the visiting-set cycle guard (an active
back-edge contributes zero additional depth). none means the fuel ran
out, which the termination theorem rules out for sufficient fuel. -/
def dfsF (g : DotGraph) : Nat → List (String × Nat) → List String → String →
    Option (Nat × List (String × Nat))
  | 0, _, _, _ => none
  | fuel + 1, memo, visiting, nid =>
    match lookupNat memo nid with
    | some d => some (d, memo)
    | none =>
      if visiting.contains nid then some (0, memo)
      else
        match dfsChildrenF g fuel memo (nid :: visiting) (outEdges g nid) with
        | none => none
        | some (best, memo2) => some (best, (nid, best) :: memo2)

/-- The loop over out-edges inside dfs: best = max(best, 1 + dfs(dst)). -/
def dfsChildrenF (g : DotGraph) : Nat → List (String × Nat) → List String → List DotEdge →
    Option (Nat × List (String × Nat))
  | _, memo, _, [] => some (0, memo)
  | fuel, memo, visiting, e :: es =>
    match dfsF g fuel memo visiting e.dst with
    | none => none
    | some (d, memo1) =>
      match dfsChildrenF g fuel memo1 visiting es with
      | none => none
      | some (best, memo2) => some (max (1 + d) best, memo2)

end

/-- Stable descending insertion by depth score (Python list.sort with
reverse=True). -/
def insertRanked (a : String × Nat) : List (String × Nat) → List (String × Nat)
  | [] => [a]
  | b :: bs => if a.2 > b.2 then a :: b :: bs else b :: insertRanked a bs

def sortRanked : List (String × Nat) → List (String × Nat)
  | [] => []
  | a :: as => insertRanked a (sortRanked as)

/-- Fuel-indexed embedding of DotGraph.ranked_tables. -/
def rankedTablesF (g : DotGraph) (fuel : Nat) : Option (List (String × Nat)) :=
  match getStartNodeId g with
  | none => some []
  | some start =>
    match dfsF g fuel [] [] start with
    | none => none
    | some (_, memo) =>
      some (sortRanked ((g.nodes.filter
        (fun p => pyLower ((p.2.shape).getD "") = "ellipse")).map
          (fun p => (p.2.label, (lookupNat memo p.1).getD 0))))

/-- One {node, via} entry of a discovered path. -/
structure PathEnt : Type where
  node : String
  via : String
deriving DecidableEq

/-- Fuel-indexed embedding of the explicit-stack search loop of
DotGraph.path_constraints. The stack holds (node id, path so far, steps);
an entry beyond max_steps is dropped, a target hit captures the path, and
successors are pushed so that the first out-edge is explored first. -/
def pcLoopF (g : DotGraph) (targetId : String) (maxPaths maxSteps : Nat) :
    Nat → List (String × List PathEnt × Nat) → List (List PathEnt) →
    Option (List (List PathEnt))
  | 0, _, _ => none
  | fuel + 1, stack, results =>
    if results.length ≥ maxPaths then some results
    else
      match stack with
      | [] => some results
      | (nid, path, steps) :: rest =>
        if steps > maxSteps then pcLoopF g targetId maxPaths maxSteps fuel rest results
        else
          match getNode g nid with
          | none => pcLoopF g targetId maxPaths maxSteps fuel rest results
          | some _ =>
            if nid = targetId then
              pcLoopF g targetId maxPaths maxSteps fuel rest (results ++ [path])
            else
              pcLoopF g targetId maxPaths maxSteps fuel
                (((outEdges g nid).filterMap (fun e =>
                  match getNode g e.dst with
                  | none => none
                  | some nn => some (e.dst, path ++ [⟨nn.label, e.label⟩], steps + 1))) ++ rest)
                results

/-- The heuristic label filter of DotGraph.path_constraints. -/
def keepEnt (ent : PathEnt) : Bool :=
  strContains ent.node "isValid" || strContains ent.node "==" || strContains ent.node ".hit"

/-- The post-processing of DotGraph.path_constraints: keep only
likely-constraint entries, falling back to the raw first path when the
filter removes everything. -/
def pcPostProcess (results : List (List PathEnt)) : List PathEnt :=
  let simplified := results.map (fun p => p.filter keepEnt)
  if ¬simplified.isEmpty ∧ simplified.all (fun x => x.length = 0) then results.headD []
  else simplified.headD []

/-- Fuel-indexed embedding of DotGraph.path_constraints. -/
def pathConstraintsF (g : DotGraph) (target_label : String) (maxPaths maxSteps fuel : Nat) :
    Option (List PathEnt) :=
  match getStartNodeId g with
  | none => some []
  | some start =>
    match findNodeIdByLabel g target_label with
    | none => some []
    | some targetId =>
      (pcLoopF g targetId maxPaths maxSteps fuel [(start, [], 0)] []).map pcPostProcess

/-- Fixture: empty program context (host_info is irrelevant to the
scenario-level counterexamples). -/
def emptyCtx : ProgramContext := {}

/-- Fixture for the count-check analysis: a one-step, non-required
scenario contract that forbids additional packets. -/
def c1Contract : SequenceScenarioSpec :=
  { scenarioTag := "s", required := false, allow_additional_packets := false,
    steps := [{ tx_role := "r" }] }

/-- Fixture: a candidate packet tagged with a different scenario, so the
scenario "s" has zero matching packets. -/
def c1Packet : PacketSpec :=
  { packet_id := 1, tx_host := "h1", scenarioTag := some "other",
    protocol_stack := ["Ethernet"], fields := .nil }

/-- Fixture: role bindings of the handshake example. -/
def c2Rb : List (String × String) := [("initiator", "h1"), ("responder", "h3")]

/-- Fixture: the handshake scenario contract with the two seq/ack
relations ack(step2)=seq(step1)+1 and ack(step3)=seq(step2)+1. -/
def c2Contract : SequenceScenarioSpec :=
  { scenarioTag := "s", required := true, allow_additional_packets := false,
    steps := [{ tx_role := "initiator" }, { tx_role := "responder" }, { tx_role := "initiator" }],
    field_relations :=
      [ { left_step := 2, left_field := "TCP.ack", op := "eq", right_step := 1,
          right_field := "TCP.seq", right_delta := PyRat.ofInt 1 },
        { left_step := 3, left_field := "TCP.ack", op := "eq", right_step := 2,
          right_field := "TCP.seq", right_delta := PyRat.ofInt 1 } ] }

/-- Fixture: the handshake candidate with step1.seq=1000, step2.ack as
given, step2.seq=5000, step3.ack=5001. -/
def c2Pkts (ack2 : Int) : List PacketSpec :=
  [ { packet_id := 1, tx_host := "h1", scenarioTag := some "s",
      protocol_stack := ["Ethernet", "IPv4", "TCP"], fields := pyD [("TCP.seq", .pyint 1000)] },
    { packet_id := 2, tx_host := "h3", scenarioTag := some "s",
      protocol_stack := ["Ethernet", "IPv4", "TCP"],
      fields := pyD [("TCP.ack", .pyint ack2), ("TCP.seq", .pyint 5000)] },
    { packet_id := 3, tx_host := "h1", scenarioTag := some "s",
      protocol_stack := ["Ethernet", "IPv4", "TCP"], fields := pyD [("TCP.ack", .pyint 5001)] } ]

/-- Fixture for the out-of-range analysis: one declared step, additional
packets allowed, and a relation that references step 2. -/
def c3Contract : SequenceScenarioSpec :=
  { scenarioTag := "s", required := true, allow_additional_packets := true,
    steps := [{ tx_role := "initiator" }],
    field_relations :=
      [ { left_step := 2, left_field := "TCP.seq", op := "eq", right_step := 2,
          right_field := "TCP.seq", right_delta := PyRat.ofInt 0 } ] }

/-- Fixture: two packets in scenario "s", one more than the declared step
count of c3Contract. -/
def c3Pkts : List PacketSpec :=
  [ { packet_id := 1, tx_host := "h1", scenarioTag := some "s",
      protocol_stack := ["Ethernet"], fields := pyD [("TCP.seq", .pyint 7)] },
    { packet_id := 2, tx_host := "h3", scenarioTag := some "s",
      protocol_stack := ["Ethernet"], fields := pyD [("TCP.seq", .pyint 9)] } ]

/-- Fixture: role bindings for the out-of-range analysis. -/
def c3Rb : List (String × String) := [("initiator", "h1"), ("responder", "h3")]

/-- Fixture: the out-of-range relation of c3Contract, step 2 of a one-step
scenario. -/
def c3Rel : FieldRelationSpec :=
  { left_step := 2, left_field := "TCP.seq", op := "eq", right_step := 2,
    right_field := "TCP.seq", right_delta := PyRat.ofInt 0 }

/-- Fixture: a one-element relation for the resolvability analysis. -/
def c2WRel : FieldRelationSpec :=
  { left_step := 1, left_field := "f", op := "eq", right_step := 1,
    right_field := "f", right_delta := PyRat.ofInt 0 }

/-- Fixture: packet whose field f is a non-numeric string. -/
def c2WPkt : PacketSpec :=
  { packet_id := 1, tx_host := "h1", scenarioTag := some "w",
    protocol_stack := ["Ethernet"], fields := pyD [("f", .pystr "oops")] }

/-- Fixture: packet whose field f is numeric. -/
def c2WPkt2 : PacketSpec :=
  { packet_id := 1, tx_host := "h1", scenarioTag := some "w",
    protocol_stack := ["Ethernet"], fields := pyD [("f", .pyint 1)] }

/-- Fixture: the single-packet variant for the out-of-range witness. -/
def c3Pkt1 : PacketSpec :=
  { packet_id := 1, tx_host := "h1", scenarioTag := some "s",
    protocol_stack := ["Ethernet"], fields := pyD [("TCP.seq", .pyint 7)] }

/-- Fixture: two-packet candidate for the execution-coverage witness. -/
def c5Pkts : List PacketSpec :=
  [ { packet_id := 1, tx_host := "h1", scenarioTag := some "positive_handshake",
      protocol_stack := ["Ethernet", "IPv4", "TCP"], fields := .nil },
    { packet_id := 2, tx_host := "h3", scenarioTag := some "positive_handshake",
      protocol_stack := ["Ethernet", "IPv4", "TCP"], fields := .nil } ]

/-- Fixture: a control-plane sequence with one apply operation. -/
def c5Cps : List ControlPlaneOperation :=
  [ { order := 1, operation_type := "apply_table_entry", target := "MyIngress.ipv4_lpm",
      entity_index := some 1 } ]

/-- Fixture: an execution timeline that sends only packet 1. -/
def c5Exec : List ExecutionOperation :=
  [ { order := 1, operation_type := "apply_table_entry", entity_index := some 1,
      control_plane_order := some 1 },
    { order := 2, operation_type := "send_packet", packet_id := some 1 } ]

/-- Fixture: the ternary table schema for the priority analysis. -/
def c7Table : PyDict :=
  pyD [ ("key", .pylist (pyL [ .pydict (pyD [("match_type", .pystr "ternary"),
          ("target", .pylist (pyL [.pystr "ipv4", .pystr "dstAddr"]))]) ])),
        ("actions", .pylist (pyL [.pystr "a"])) ]

/-- Fixture: context exposing c7Table as table t with action a. -/
def c7Ctx : ProgramContext :=
  { host_info := [("h1", .nil)],
    tables_by_name := [("t", .pydict c7Table)],
    actions_by_name := [("a", .pydict (pyD [("runtime_data", .pylist .nil)]))] }

/-- Fixture: task with a resolvable role binding. -/
def c7Task : TaskSpec := { role_bindings := [("r", "h1")] }

/-- Fixture: a ternary entity without priority. -/
def c7Rule : TableRule :=
  { table_name := "t", match_type := "ternary",
    match_keys := pyD [("hdr.ipv4.dstAddr", .pystr "10.0.0.1")],
    action_name := "a", action_data := .nil, priority := none }

/-- Fixture: lpm table schema for the coverage witness. -/
def c6Table : PyDict :=
  pyD [ ("key", .pylist (pyL [ .pydict (pyD [("match_type", .pystr "lpm"),
          ("target", .pylist (pyL [.pystr "ipv4", .pystr "dstAddr"]))]) ])),
        ("actions", .pylist (pyL [.pystr "a"])) ]

/-- Fixture: context exposing c6Table as table t with action a. -/
def c6Ctx : ProgramContext :=
  { host_info := [("h1", .nil)],
    tables_by_name := [("t", .pydict c6Table)],
    actions_by_name := [("a", .pydict (pyD [("runtime_data", .pylist .nil)]))] }

/-- Fixture: task with a resolvable role binding. -/
def c6Task : TaskSpec := { role_bindings := [("r", "h1")] }

/-- Fixture: an entity matching destination 10.0.3.3. -/
def c6Rule : TableRule :=
  { table_name := "t", match_type := "lpm",
    match_keys := pyD [("hdr.ipv4.dstAddr", .pylist (pyL [.pystr "10.0.3.3", .pyint 32]))],
    action_name := "a", action_data := .nil, priority := none }

/-- Fixture: a packet whose destination 10.0.9.9 no entity covers. -/
def c6Pkt : PacketSpec :=
  { packet_id := 1, tx_host := "h1", scenarioTag := none,
    protocol_stack := ["Ethernet", "IPv4", "TCP"],
    fields := pyD [("IPv4.dst", .pystr "10.0.9.9")] }

/-- Fuel that always suffices for the ranked-tables dfs: one more than the
number of node identifiers. -/
def rankFuel (g : DotGraph) : Nat := (univIds g).length + 1

/-- Weight of one search-stack entry: an exponential in the remaining step
budget, so that expanding an entry strictly shrinks the stack total. -/
def stackWeight (edgeCount maxSteps : Nat) (entry : String × List PathEnt × Nat) : Nat :=
  (edgeCount + 1) ^ (maxSteps + 1 - entry.2.2)

/-- Total weight of the search stack. -/
def stackMeasure (edgeCount maxSteps : Nat)
    (stack : List (String × List PathEnt × Nat)) : Nat :=
  (stack.map (stackWeight edgeCount maxSteps)).sum

/-- Fuel that always suffices for the bounded path search. -/
def pcFuel (g : DotGraph) (maxSteps : Nat) : Nat :=
  (g.edges.length + 1) ^ (maxSteps + 1) + 1

theorem firstSome_eq_none_iff {α : Type} {l : List (Option α)} :
    firstSome l = none ↔ ∀ x ∈ l, x = none := by
  induction l with
  | nil => simp [firstSome]
  | cons h t ih =>
    cases h with
    | some a => simp [firstSome]
    | none => simp [firstSome, ih]

theorem firstSome_map_some {α β : Type} {l : List α} {f : α → Option β} {r : β}
    (h : firstSome (l.map f) = some r) : ∃ x ∈ l, f x = some r := by
  induction l with
  | nil => simp [firstSome] at h
  | cons a t ih =>
    rw [List.map_cons] at h
    cases hfa : f a with
    | some b =>
      rw [hfa] at h
      simp [firstSome] at h
      exact ⟨a, by simp, by rw [hfa, h]⟩
    | none =>
      rw [hfa] at h
      simp only [firstSome] at h
      obtain ⟨x, hx, hfx⟩ := ih h
      exact ⟨x, by simp [hx], hfx⟩

theorem firstSome_map_status {α : Type} {l : List α} {f : α → Option CriticResult}
    {r : CriticResult} (hf : ∀ x r2, f x = some r2 → r2.status = "FAIL")
    (h : firstSome (l.map f) = some r) : r.status = "FAIL" := by
  obtain ⟨x, _, hfx⟩ := firstSome_map_some h
  exact hf x r hfx

theorem fieldExpectationsCheck_status {scen : String} {idx : Nat}
    {step : PacketStepSpec} {packet : PacketSpec} {r : CriticResult}
    (h : fieldExpectationsCheck scen idx step packet = some r) : r.status = "FAIL" := by
  unfold fieldExpectationsCheck at h
  refine firstSome_map_status ?_ h
  intro x r2 hx
  split at hx
  · simp_all
  · cases hx; rfl

theorem rxChecks_status {ctx : ProgramContext} {scen : String} {idx : Nat}
    {step : PacketStepSpec} {packet : PacketSpec} {rxr erh : String} {r : CriticResult}
    (h : rxChecks ctx scen idx step packet rxr erh = some r) : r.status = "FAIL" := by
  unfold rxChecks at h
  repeat' split at h
  all_goals first
    | (cases h; rfl)
    | exact fieldExpectationsCheck_status h

theorem stepCheck_status {ctx : ProgramContext} {rb : List (String × String)}
    {scen : String} {idx : Nat} {step : PacketStepSpec} {packet : PacketSpec}
    {r : CriticResult} (h : stepCheck ctx rb scen idx step packet = some r) :
    r.status = "FAIL" := by
  unfold stepCheck at h
  repeat' split at h
  all_goals first
    | (cases h; rfl)
    | exact rxChecks_status h
    | exact fieldExpectationsCheck_status h

theorem relationCheck_status {scen : String} {sp : List PacketSpec}
    {rel : FieldRelationSpec} {r : CriticResult}
    (h : relationCheck scen sp rel = some r) : r.status = "FAIL" := by
  unfold relationCheck at h
  repeat' split at h
  all_goals first
    | (cases h; rfl)
    | simp_all

theorem vsc_status {ctx : ProgramContext} {rb : List (String × String)}
    {ps : List PacketSpec} {c : SequenceScenarioSpec} {r : CriticResult}
    (h : validateScenarioContract ctx rb ps c = some r) : r.status = "FAIL" := by
  unfold validateScenarioContract at h
  repeat' split at h
  all_goals first
    | (cases h; rfl)
    | (cases h
       exact firstSome_map_status (fun t r2 ht => stepCheck_status ht) (by assumption))
    | exact firstSome_map_status (fun rel r2 hrel => relationCheck_status hrel) h
    | simp_all

theorem vsc_none {ctx : ProgramContext} {rb : List (String × String)}
    {ps : List PacketSpec} {c : SequenceScenarioSpec}
    (h : validateScenarioContract ctx rb ps c = none) :
    (scenarioPackets ps c.scenarioTag = [] ∧ c.required = false) ∨
    (scenarioPackets ps c.scenarioTag ≠ [] ∧
     c.steps.length ≤ (scenarioPackets ps c.scenarioTag).length ∧
     (c.allow_additional_packets = false →
       (scenarioPackets ps c.scenarioTag).length = c.steps.length) ∧
     ∀ rel ∈ c.field_relations,
       relationCheck c.scenarioTag (scenarioPackets ps c.scenarioTag) rel = none) := by
  unfold validateScenarioContract at h
  split at h
  · exact absurd h (by simp)
  · rename_i hc1
    split at h
    · rename_i hc2
      left
      refine ⟨by simpa using hc2, ?_⟩
      cases hreq : c.required with
      | false => rfl
      | true => exact absurd ⟨hc2, hreq⟩ hc1
    · rename_i hc2
      split at h
      · exact absurd h (by simp)
      · rename_i hc3
        split at h
        · exact absurd h (by simp)
        · rename_i hc4
          split at h
          · exact absurd h (by simp)
          · right
            refine ⟨?_, ?_, ?_, ?_⟩
            · intro he
              exact hc2 (by simp [he])
            · exact Nat.not_lt.mp hc3
            · intro hano
              by_contra hne
              exact hc4 ⟨by simp [hano], hne⟩
            · intro rel hrel
              exact firstSome_eq_none_iff.mp h _ (List.mem_map_of_mem _ hrel)

/-- Claim C9: for every program context and task, the packet-sequence
contract validator rejects an empty candidate with the fixed feedback
"packet_sequence is empty", before any other check runs. -/
theorem claim_c9_empty_sequence (ctx : ProgramContext) (task : TaskSpec) :
    validatePacketSequenceContract ctx task [] =
      ⟨"FAIL", "packet_sequence is empty"⟩ := rfl

theorem emRecKey_of_none {actual : PyVal} {key : String} :
    ∀ (m : PyDict), dictGet m key = none → emRecKey actual key m = true
  | .nil, _ => rfl
  | .cons k v rest, h => by
    unfold dictGet at h
    unfold emRecKey
    split at h
    · exact absurd h (by simp)
    · rename_i hk
      rw [if_neg hk]
      exact emRecKey_of_none rest h

/-- Claim C10: a dict-shaped expectation that contains none of the keys
equals, eq, contains, not_contains, one_of matches every actual value:
unrecognized keys are silently ignored, so such an expectation constrains
nothing. -/
theorem claim_c10_empty_expectation (actual : PyVal) (m : PyDict)
    (h1 : dictGet m "equals" = none) (h2 : dictGet m "eq" = none)
    (h3 : dictGet m "contains" = none) (h4 : dictGet m "not_contains" = none)
    (h5 : dictGet m "one_of" = none) :
    expectationMatches actual (.pydict m) = true := by
  unfold expectationMatches
  rw [emRecKey_of_none m h1, emRecKey_of_none m h2, h3, h4, h5]
  rfl

/-- Witness for claim C10 at a concrete expectation dict with only an
unrecognized key. -/
theorem claim_c10_witness :
    expectationMatches (.pystr "anything") (.pydict (pyD [("unknown_key", .pyint 3)])) = true :=
  claim_c10_empty_expectation (.pystr "anything") (pyD [("unknown_key", .pyint 3)])
    (by decide) (by decide) (by decide) (by decide) (by decide)

/-- Claim C4 counterexample: the actual string "6.0" does match the
literal expected value 6 (and symmetrically), because _coerce_literal
turns an integral float string into the int 6; the claim asserts these do
not match. -/
theorem claim_c4_counterexample :
    expectationMatches (.pystr "6.0") (.pyint 6) = true ∧
    expectationMatches (.pyint 6) (.pystr "6.0") = true ∧
    coerceLiteral (.pystr "6.0") = coerceLiteral (.pystr "6") := by
  refine ⟨by decide, by decide, by decide⟩

/-- Claim C4 amended: numeric-looking strings are normalized to numbers;
"6" matches 6, and "6.0" also matches 6 because an integral float value is
coerced to the int 6; the integer-versus-float distinction survives only
for non-integral values such as "6.5", which does not match 6. -/
theorem claim_c4_amended :
    expectationMatches (.pystr "6") (.pyint 6) = true ∧
    expectationMatches (.pyint 6) (.pystr "6") = true ∧
    expectationMatches (.pystr "6.0") (.pyint 6) = true ∧
    expectationMatches (.pyint 6) (.pystr "6.0") = true ∧
    expectationMatches (.pystr "6.5") (.pyint 6) = false ∧
    expectationMatches (.pyint 6) (.pystr "6.5") = false := by
  refine ⟨by decide, by decide, by decide, by decide, by decide, by decide⟩

/-- Claim C1 counterexample: a scenario contract with
allow_additional_packets=false and one declared step, against a candidate
whose matching packet count is 0 (different from 1): the scenario
validator raises no failure because a non-required scenario with zero
matching packets is skipped. -/
theorem claim_c1_counterexample :
    validateScenarioContract emptyCtx [] [c1Packet] c1Contract = none ∧
    c1Contract.allow_additional_packets = false ∧
    (scenarioPackets [c1Packet] c1Contract.scenarioTag).length ≠ c1Contract.steps.length := by
  refine ⟨by decide, by decide, by decide⟩

/-- Claim C1 amended: with allow_additional_packets=false, a candidate
whose matching packet count differs from the declared step count is always
rejected with a FAIL verdict, provided the scenario has at least one
matching packet or is required (a non-required scenario with zero matching
packets is skipped). -/
theorem claim_c1_count_contract (ctx : ProgramContext) (rb : List (String × String))
    (ps : List PacketSpec) (c : SequenceScenarioSpec)
    (hallow : c.allow_additional_packets = false)
    (hneq : (scenarioPackets ps c.scenarioTag).length ≠ c.steps.length)
    (hreach : scenarioPackets ps c.scenarioTag ≠ [] ∨ c.required = true) :
    ∃ r, validateScenarioContract ctx rb ps c = some r ∧ r.status = "FAIL" := by
  cases hres : validateScenarioContract ctx rb ps c with
  | some r => exact ⟨r, rfl, vsc_status hres⟩
  | none =>
    exfalso
    rcases vsc_none hres with ⟨hsp, hreq⟩ | ⟨_, _, hexact, _⟩
    · rcases hreach with hne | hr
      · exact hne hsp
      · rw [hr] at hreq; cases hreq
    · exact hneq (hexact hallow)

/-- Witness for the amended claim C1 at the concrete fixture: the same
contract made required is rejected when its scenario is missing. -/
theorem claim_c1_witness :
    ∃ r, validateScenarioContract emptyCtx [] [c1Packet]
        { c1Contract with required := true } = some r ∧ r.status = "FAIL" :=
  claim_c1_count_contract emptyCtx [] [c1Packet] { c1Contract with required := true }
    (by decide) (by decide) (Or.inr rfl)

/-- Claim C3 counterexample: a relation whose left_step (2) exceeds the
declared step count (1) does not yield FAIL when the candidate carries
additional packets: the out-of-range guard compares against the matching
packet count, not the declared step count, so this candidate passes the
scenario validator. -/
theorem claim_c3_counterexample :
    validateScenarioContract emptyCtx c3Rb c3Pkts c3Contract = none ∧
    c3Contract.field_relations = [c3Rel] ∧
    c3Rel.left_step > c3Contract.steps.length := by
  refine ⟨by decide, rfl, by decide⟩

/-- Claim C3 amended: a relation whose left_step or right_step exceeds the
number of matching scenario packets yields a FAIL verdict (provided the
scenario has at least one matching packet or is required); the bound
enforced by the code is the matching packet count, which equals the
declared step count only when no additional packets are present. -/
theorem claim_c3_relation_bounds (ctx : ProgramContext) (rb : List (String × String))
    (ps : List PacketSpec) (c : SequenceScenarioSpec) (rel : FieldRelationSpec)
    (hrel : rel ∈ c.field_relations)
    (hrange : rel.left_step > (scenarioPackets ps c.scenarioTag).length ∨
      rel.right_step > (scenarioPackets ps c.scenarioTag).length)
    (hreach : scenarioPackets ps c.scenarioTag ≠ [] ∨ c.required = true) :
    ∃ r, validateScenarioContract ctx rb ps c = some r ∧ r.status = "FAIL" := by
  cases hres : validateScenarioContract ctx rb ps c with
  | some r => exact ⟨r, rfl, vsc_status hres⟩
  | none =>
    exfalso
    rcases vsc_none hres with ⟨hsp, hreq⟩ | ⟨_, _, _, hrels⟩
    · rcases hreach with hne | hr
      · exact hne hsp
      · rw [hr] at hreq; cases hreq
    · have hthis := hrels rel hrel
      unfold relationCheck at hthis
      rw [if_pos hrange] at hthis
      cases hthis

/-- Witness for the amended claim C3: dropping the extra packet makes the
same out-of-range relation fail. -/
theorem claim_c3_witness :
    ∃ r, validateScenarioContract emptyCtx c3Rb [c3Pkt1] c3Contract = some r ∧
      r.status = "FAIL" :=
  claim_c3_relation_bounds emptyCtx c3Rb [c3Pkt1] c3Contract c3Rel (List.Mem.head _)
    (Or.inl (by decide)) (Or.inr rfl)

/-- Claim C2: each field relation resolves both referenced field values
with _to_number (decimal and 0x hexadecimal strings accepted), fails when
either is unresolvable, otherwise holds exactly when
left op (right + right_delta); the concrete handshake contract passes with
step2.ack=1001 and fails with a relation-specific message at 1002. -/
theorem claim_c2_field_relations :
    (∀ (scen : String) (sp : List PacketSpec) (rel : FieldRelationSpec),
      ¬(rel.left_step > sp.length ∨ rel.right_step > sp.length) →
      (relLeftNum sp rel = none ∨ relRightNum sp rel = none) →
      relationCheck scen sp rel = some ⟨"FAIL", "Scenario " ++ scen ++
        " relation requires numeric fields " ++ rel.left_field ++ "/" ++
        rel.right_field ++ "."⟩) ∧
    (∀ (scen : String) (sp : List PacketSpec) (rel : FieldRelationSpec) (lv rv : PyRat),
      ¬(rel.left_step > sp.length ∨ rel.right_step > sp.length) →
      relLeftNum sp rel = some lv → relRightNum sp rel = some rv →
      (relationCheck scen sp rel = none ↔
        compareNumeric lv (ratAdd rv rel.right_delta) rel.op = true)) ∧
    toNumber (.pystr "1001") = some (PyRat.ofInt 1001) ∧
    toNumber (.pystr "0x3e9") = some (PyRat.ofInt 1001) ∧
    validateScenarioContract emptyCtx c2Rb (c2Pkts 1001) c2Contract = none ∧
    validateScenarioContract emptyCtx c2Rb (c2Pkts 1002) c2Contract =
      some ⟨"FAIL", "Scenario s relation failed: step 2.TCP.ack eq step 1.TCP.seq + delta."⟩ := by
  refine ⟨?_, ?_, by decide, by decide, by decide, by decide⟩
  · intro scen sp rel hrange hnone
    unfold relationCheck
    rw [if_neg hrange]
    cases hl : relLeftNum sp rel with
    | none => cases hr : relRightNum sp rel <;> rfl
    | some lv =>
      cases hr : relRightNum sp rel with
      | none => rfl
      | some rv =>
        rcases hnone with hcon | hcon
        · rw [hl] at hcon; cases hcon
        · rw [hr] at hcon; cases hcon
  · intro scen sp rel lv rv hrange hl hr
    unfold relationCheck
    rw [if_neg hrange, hl, hr]
    by_cases hcmp : compareNumeric lv (ratAdd rv rel.right_delta) rel.op = true
    · simp [hcmp]
    · simp [hcmp]

/-- Witness for claim C2: the unresolvable case fails with the numeric
message, and the resolvable case reduces to the numeric comparison, at
concrete one-packet fixtures. -/
theorem claim_c2_witness :
    relationCheck "w" [c2WPkt] c2WRel = some ⟨"FAIL",
      "Scenario w relation requires numeric fields f/f."⟩ ∧
    (relationCheck "w" [c2WPkt2] c2WRel = none ↔
      compareNumeric (PyRat.ofInt 1) (ratAdd (PyRat.ofInt 1) (PyRat.ofInt 0)) "eq" = true) := by
  refine ⟨?_, ?_⟩
  · exact claim_c2_field_relations.1 "w" [c2WPkt] c2WRel (by decide) (Or.inl (by rfl))
  · exact claim_c2_field_relations.2.1 "w" [c2WPkt2] c2WRel (PyRat.ofInt 1) (PyRat.ofInt 1)
      (by decide) (by rfl) (by rfl)

/-- Claim C5: whenever the send_packet steps of the execution timeline do
not reproduce the candidate packet ids exactly and in order (a missing,
duplicated, or reordered send), the execution-sequence validator fails
with the send_packet order/coverage mismatch message, regardless of the
control-plane steps present. -/
theorem claim_c5_send_coverage (ps : List PacketSpec) (entities : List TableRule)
    (cps : List ControlPlaneOperation) (es : List ExecutionOperation)
    (h : sendPacketIds es ≠ ps.map (fun p => some p.packet_id)) :
    validate_execution_sequence ps entities cps es =
      ⟨"FAIL", "send_packet order/coverage mismatch: send_packet steps must match packet_sequence packet ids exactly and in order."⟩ := by
  unfold validate_execution_sequence
  rw [if_pos h]

/-- Witness for claim C5: an execution timeline missing the send of packet
2 is rejected with the coverage-mismatch message. -/
theorem claim_c5_witness :
    validate_execution_sequence c5Pkts [] c5Cps c5Exec =
      ⟨"FAIL", "send_packet order/coverage mismatch: send_packet steps must match packet_sequence packet ids exactly and in order."⟩ :=
  claim_c5_send_coverage c5Pkts [] c5Cps c5Exec (by decide)

theorem checkEntity_status {ctx : ProgramContext} {idx : Nat} {rule : TableRule}
    {r : CriticResult} (h : checkEntity ctx idx rule = some r) : r.status = "FAIL" := by
  unfold checkEntity at h
  repeat' split at h
  all_goals first
    | (cases h; rfl)
    | simp_all

theorem insertStr_ne_nil (a : String) (l : List String) : insertStr a l ≠ [] := by
  cases l with
  | nil => simp [insertStr]
  | cons b bs =>
    unfold insertStr
    split <;> simp

theorem sortStrs_ne_nil {l : List String} (h : l ≠ []) : sortStrs l ≠ [] := by
  cases l with
  | nil => exact absurd rfl h
  | cons a as => exact insertStr_ne_nil a (sortStrs as)

theorem enumFrom_mem {α : Type} {a : α} : ∀ {l : List α} (n : Nat), a ∈ l →
    ∃ i, (i, a) ∈ enumFrom n l
  | [], _, h => absurd h (by simp)
  | b :: bs, n, h => by
    rcases List.mem_cons.mp h with rfl | htail
    · exact ⟨n, List.Mem.head _⟩
    · obtain ⟨i, hi⟩ := enumFrom_mem (n + 1) htail
      exact ⟨i, List.Mem.tail _ hi⟩

/-- Claim C6: when some packet destination address (normalized IPv4, CIDR
suffix ignored) is outside the union of destination addresses matched by
the entities, validate_control_plane_entities returns FAIL; and whenever
the per-entity checks all pass (and entities is nonempty), the verdict is
exactly the coverage failure citing the sorted uncovered address list. -/
theorem claim_c6_destination_coverage (ctx : ProgramContext) (task : TaskSpec)
    (ps : List PacketSpec) (entities : List TableRule) (ip : String)
    (hin : ip ∈ extractPacketDestinationIps ps)
    (hout : ¬(coveredIps entities).contains ip) :
    (validateControlPlaneEntities ctx task ps entities).status = "FAIL" ∧
    (entities ≠ [] →
      firstSome ((enumFrom 1 entities).map (fun p => checkEntity ctx p.1 p.2)) = none →
      validateControlPlaneEntities ctx task ps entities =
        ⟨"FAIL", uncoveredFeedback (uncoveredIpsOf ps entities)⟩) := by
  have hne : extractPacketDestinationIps ps ≠ [] := by
    intro h0
    rw [h0] at hin
    cases hin
  have hnemp : ¬(extractPacketDestinationIps ps).isEmpty = true := by
    simpa using hne
  have hip_filter : ip ∈ (extractPacketDestinationIps ps).filter
      (fun i => ¬(coveredIps entities).contains i) :=
    List.mem_filter.mpr ⟨hin, by simpa using hout⟩
  have huncov : ¬(uncoveredIpsOf ps entities).isEmpty = true := by
    have : uncoveredIpsOf ps entities ≠ [] := by
      apply sortStrs_ne_nil
      intro h0
      rw [h0] at hip_filter
      cases hip_filter
    simpa using this
  have hnemp2 : (extractPacketDestinationIps ps).isEmpty = false := by
    simpa using hnemp
  have huncov2 : (uncoveredIpsOf ps entities).isEmpty = false := by
    simpa using huncov
  constructor
  · by_cases hent : entities.isEmpty
    · unfold validateControlPlaneEntities
      rw [if_pos hent]
    · unfold validateControlPlaneEntities
      rw [if_neg hent]
      cases hloop : firstSome ((enumFrom 1 entities).map (fun p => checkEntity ctx p.1 p.2)) with
      | some r =>
        exact firstSome_map_status (fun p r2 hp => checkEntity_status hp) hloop
      | none =>
        simp [hnemp2, huncov2]
  · intro hentne hloop
    unfold validateControlPlaneEntities
    rw [if_neg (by simpa using hentne), hloop]
    simp [hnemp2, huncov2]

/-- Witness for claim C6: one lpm entity covering 10.0.3.3 does not cover
the packet destination 10.0.9.9, so validation fails citing it. -/
theorem claim_c6_witness :
    (validateControlPlaneEntities c6Ctx c6Task [c6Pkt] [c6Rule]).status = "FAIL" ∧
    validateControlPlaneEntities c6Ctx c6Task [c6Pkt] [c6Rule] =
      ⟨"FAIL", uncoveredFeedback (uncoveredIpsOf [c6Pkt] [c6Rule])⟩ := by
  have h := claim_c6_destination_coverage c6Ctx c6Task [c6Pkt] [c6Rule] "10.0.9.9"
    (by decide) (by decide)
  exact ⟨h.1, h.2 (by simp) (by decide)⟩

theorem checkEntity_priority_some {ctx : ProgramContext} {idx : Nat} {rule : TableRule}
    {table : PyDict}
    (htbl : lookupPy ctx.tables_by_name rule.table_name = some (.pydict table))
    (htro : (tableMatchTypes table).any isTRO = true)
    (hpri : rule.priority = none) :
    checkEntity ctx idx rule ≠ none := by
  intro hnone
  simp only [checkEntity, htbl] at hnone
  split at hnone
  · exact absurd hnone (by simp)
  · split at hnone
    · exact absurd hnone (by simp)
    · rw [if_pos ⟨htro, hpri⟩] at hnone
      exact absurd hnone (by simp)

/-- Claim C7: (1) an entity bound to a table whose schema match types
include ternary/range/optional and having no priority always yields a
FAIL verdict; (2) at the entity-check level, if the same entity with any
priority value passes, then the priority-free entity fails exactly with
the priority message; (3) an entity list whose per-entity checks all pass,
with coverage satisfied and resolvable role bindings, yields PASS, so
supplying a priority flips the verdict while holding all else constant. -/
theorem claim_c7_priority_required :
    (∀ (ctx : ProgramContext) (task : TaskSpec) (ps : List PacketSpec)
        (entities : List TableRule) (rule : TableRule) (table : PyDict),
      rule ∈ entities →
      lookupPy ctx.tables_by_name rule.table_name = some (.pydict table) →
      (tableMatchTypes table).any isTRO = true →
      rule.priority = none →
      (validateControlPlaneEntities ctx task ps entities).status = "FAIL") ∧
    (∀ (ctx : ProgramContext) (idx : Nat) (rule rule2 : TableRule) (table : PyDict),
      rule2.table_name = rule.table_name →
      rule2.match_type = rule.match_type →
      rule2.match_keys = rule.match_keys →
      rule2.action_name = rule.action_name →
      rule2.action_data = rule.action_data →
      rule2.priority ≠ none →
      rule.priority = none →
      lookupPy ctx.tables_by_name rule.table_name = some (.pydict table) →
      (tableMatchTypes table).any isTRO = true →
      checkEntity ctx idx rule2 = none →
      checkEntity ctx idx rule = some ⟨"FAIL", "entity[" ++ toString idx ++ "]: table " ++
        rule.table_name ++ " requires priority for ternary/range/optional matches."⟩) ∧
    (∀ (ctx : ProgramContext) (task : TaskSpec) (ps : List PacketSpec)
        (entities : List TableRule),
      entities ≠ [] →
      (∀ pair ∈ enumFrom 1 entities, checkEntity ctx pair.1 pair.2 = none) →
      uncoveredIpsOf ps entities = [] →
      task.role_bindings ≠ [] →
      missingRoleHosts ctx task = [] →
      validateControlPlaneEntities ctx task ps entities =
        ⟨"PASS", "Control-plane entities are structurally valid and aligned with packet_sequence."⟩) := by
  refine ⟨?_, ?_, ?_⟩
  · intro ctx task ps entities rule table hrule htbl htro hpri
    have hentne : ¬entities.isEmpty = true := by
      cases entities with
      | nil => cases hrule
      | cons a as => simp
    unfold validateControlPlaneEntities
    rw [if_neg hentne]
    cases hloop : firstSome ((enumFrom 1 entities).map (fun p => checkEntity ctx p.1 p.2)) with
    | some r => exact firstSome_map_status (fun p r2 hp => checkEntity_status hp) hloop
    | none =>
      exfalso
      obtain ⟨i, hi⟩ := enumFrom_mem 1 hrule
      have hz := firstSome_eq_none_iff.mp hloop _ (List.mem_map_of_mem _ hi)
      exact @checkEntity_priority_some ctx i rule table htbl htro hpri hz
  · intro ctx idx rule rule2 table htn hmt hmk han had hpri2 hpri htbl htro hflip
    have hcompat :
        matchTypeCompatible table rule2 = matchTypeCompatible table rule := by
      unfold matchTypeCompatible
      rw [hmt]
    simp only [checkEntity, htn, han, htbl, hcompat] at hflip
    simp only [checkEntity, htbl]
    by_cases h1 : ¬pyListContainsStr ((dictGet table "actions").getD (.pylist .nil))
        rule.action_name
    · rw [if_pos h1] at hflip
      exact absurd hflip (by simp)
    · rw [if_neg h1] at hflip
      rw [if_neg h1]
      by_cases h2 : ¬matchTypeCompatible table rule
      · rw [if_pos h2] at hflip
        exact absurd hflip (by simp)
      · rw [if_neg h2] at hflip
        rw [if_neg h2]
        rw [if_pos ⟨htro, hpri⟩]
  · intro ctx task ps entities hentne hchecks huncov hrb hmissing
    have hloop : firstSome ((enumFrom 1 entities).map
        (fun p => checkEntity ctx p.1 p.2)) = none := by
      rw [firstSome_eq_none_iff]
      intro x hx
      obtain ⟨pair, hpair, hfx⟩ := List.mem_map.mp hx
      rw [← hfx]
      exact hchecks pair hpair
    have hrole : cpeRoleCheck ctx task =
        ⟨"PASS", "Control-plane entities are structurally valid and aligned with packet_sequence."⟩ := by
      unfold cpeRoleCheck
      rw [if_neg (by simpa using hrb), if_neg (by simp [hmissing])]
    unfold validateControlPlaneEntities
    rw [if_neg (by simpa using hentne), hloop]
    by_cases hext : (extractPacketDestinationIps ps).isEmpty
    · simp [hext, hrole]
    · have huncovb : (uncoveredIpsOf ps entities).isEmpty = true := by simp [huncov]
      simp [hext, huncovb, hrole]

/-- Witness for claim C7: the concrete ternary entity without priority is
rejected, and the same entity with priority 5 makes the whole validation
pass. -/
theorem claim_c7_witness :
    (validateControlPlaneEntities c7Ctx c7Task [] [c7Rule]).status = "FAIL" ∧
    checkEntity c7Ctx 1 c7Rule = some ⟨"FAIL",
      "entity[" ++ toString (1 : Nat) ++ "]: table " ++ c7Rule.table_name ++
        " requires priority for ternary/range/optional matches."⟩ ∧
    validateControlPlaneEntities c7Ctx c7Task [] [{ c7Rule with priority := some 5 }] =
      ⟨"PASS", "Control-plane entities are structurally valid and aligned with packet_sequence."⟩ := by
  refine ⟨?_, ?_, ?_⟩
  · exact claim_c7_priority_required.1 c7Ctx c7Task [] [c7Rule] c7Rule c7Table
      (List.Mem.head _) rfl (by decide) rfl
  · exact claim_c7_priority_required.2.1 c7Ctx 1 c7Rule { c7Rule with priority := some 5 }
      c7Table rfl rfl rfl rfl rfl (by simp) rfl rfl (by decide) (by decide)
  · exact claim_c7_priority_required.2.2 c7Ctx c7Task [] [{ c7Rule with priority := some 5 }]
      (by simp) (by decide) rfl (by simp [c7Task]) rfl

theorem filter_length_le_of_imp {α : Type} {p q : α → Bool}
    (himp : ∀ x, q x = true → p x = true) :
    ∀ (l : List α), (l.filter q).length ≤ (l.filter p).length := by
  intro l
  induction l with
  | nil => simp
  | cons b bs ih =>
    by_cases hqb : q b = true
    · rw [List.filter_cons_of_pos hqb, List.filter_cons_of_pos (himp b hqb)]
      simpa using ih
    · rw [List.filter_cons_of_neg (by simpa using hqb)]
      by_cases hpb : p b = true
      · rw [List.filter_cons_of_pos hpb]
        exact Nat.le_succ_of_le ih
      · rw [List.filter_cons_of_neg (by simpa using hpb)]
        exact ih

theorem filter_length_lt_of_mem {α : Type} {p q : α → Bool}
    (himp : ∀ x, q x = true → p x = true) {a : α} (hpa : p a = true) (hqa : q a = false) :
    ∀ {l : List α}, a ∈ l → (l.filter q).length < (l.filter p).length := by
  intro l ha
  induction l with
  | nil => cases ha
  | cons b bs ih =>
    rcases List.mem_cons.mp ha with rfl | hmem
    · rw [List.filter_cons_of_pos hpa, List.filter_cons_of_neg (by simp [hqa])]
      exact Nat.lt_succ_of_le (filter_length_le_of_imp himp bs)
    · by_cases hqb : q b = true
      · rw [List.filter_cons_of_pos hqb, List.filter_cons_of_pos (himp b hqb)]
        simpa using ih hmem
      · rw [List.filter_cons_of_neg (by simpa using hqb)]
        by_cases hpb : p b = true
        · rw [List.filter_cons_of_pos hpb]
          exact Nat.lt_succ_of_lt (ih hmem)
        · rw [List.filter_cons_of_neg (by simpa using hpb)]
          exact ih hmem

theorem remainingCount_cons_lt {g : DotGraph} {visiting : List String} {nid : String}
    (hnid : nid ∈ univIds g) (hv : visiting.contains nid = false) :
    remainingCount g (nid :: visiting) < remainingCount g visiting := by
  unfold remainingCount
  refine filter_length_lt_of_mem ?_ ?_ ?_ hnid
  · intro x hx
    simp only [Bool.not_eq_true'] at hx ⊢
    simp only [List.contains_cons] at hx
    cases hcv : visiting.contains x with
    | false => rfl
    | true => rw [hcv] at hx; simp at hx
  · simp only [Bool.not_eq_true']
    exact hv
  · simp [List.contains_cons]

theorem outEdges_dst_mem_univ {g : DotGraph} {nid : String} {e : DotEdge}
    (he : e ∈ outEdges g nid) : e.dst ∈ univIds g := by
  unfold outEdges at he
  have hmem : e ∈ g.edges := List.mem_of_mem_filter he
  unfold univIds
  exact List.mem_append_right _ (List.mem_map_of_mem _ hmem)

theorem dfsChildrenF_isSome_of (g : DotGraph) (fuel : Nat)
    (HF : ∀ (memo : List (String × Nat)) (visiting : List String) (nid : String),
      nid ∈ univIds g → remainingCount g visiting < fuel →
      (dfsF g fuel memo visiting nid).isSome = true) :
    ∀ (es : List DotEdge) (memo : List (String × Nat)) (visiting : List String),
      (∀ e ∈ es, e.dst ∈ univIds g) → remainingCount g visiting < fuel →
      (dfsChildrenF g fuel memo visiting es).isSome = true := by
  intro es
  induction es with
  | nil => intro memo visiting _ _; simp [dfsChildrenF]
  | cons e rest ihe =>
    intro memo visiting hes hrem
    have h1 := HF memo visiting e.dst (hes e (List.Mem.head _)) hrem
    cases hd : dfsF g fuel memo visiting e.dst with
    | none => rw [hd] at h1; simp at h1
    | some pr =>
      obtain ⟨d, memo1⟩ := pr
      have h2 := ihe memo1 visiting (fun e2 he2 => hes e2 (List.Mem.tail _ he2)) hrem
      cases hc : dfsChildrenF g fuel memo1 visiting rest with
      | none => rw [hc] at h2; simp at h2
      | some pr2 =>
        unfold dfsChildrenF
        rw [hd]
        simp [hc]

theorem dfsF_isSome (g : DotGraph) :
    ∀ (fuel : Nat) (memo : List (String × Nat)) (visiting : List String) (nid : String),
      nid ∈ univIds g → remainingCount g visiting < fuel →
      (dfsF g fuel memo visiting nid).isSome = true := by
  intro fuel
  induction fuel with
  | zero => intro _ _ _ _ h; omega
  | succ fuel ih =>
    intro memo visiting nid hnid hrem
    unfold dfsF
    cases hm : lookupNat memo nid with
    | some d => simp
    | none =>
      cases hv : visiting.contains nid with
      | true => simp [hv]
      | false =>
        have hlt : remainingCount g (nid :: visiting) < fuel := by
          have hdec := remainingCount_cons_lt hnid hv
          omega
        have hch := dfsChildrenF_isSome_of g fuel ih (outEdges g nid) memo (nid :: visiting)
          (fun e he => outEdges_dst_mem_univ he) hlt
        cases hc : dfsChildrenF g fuel memo (nid :: visiting) (outEdges g nid) with
        | none => rw [hc] at hch; simp at hch
        | some pr =>
          obtain ⟨best, memo2⟩ := pr
          simp [hv, hc]

theorem rankedTablesF_isSome (g : DotGraph) :
    (rankedTablesF g (rankFuel g)).isSome = true := by
  unfold rankedTablesF
  cases hs : getStartNodeId g with
  | none => simp
  | some start =>
    have hstart : start ∈ univIds g := by
      unfold getStartNodeId findNodeIdByLabel at hs
      cases hf : g.nodes.find? (fun p => p.2.label = "__START__") with
      | none => rw [hf] at hs; cases hs
      | some pr =>
        rw [hf] at hs
        simp only [Option.map_some'] at hs
        have hmem : pr ∈ g.nodes := List.mem_of_find?_eq_some hf
        have hs2 : pr.1 = start := by
          injection hs
        unfold univIds
        rw [← hs2]
        exact List.mem_append_left _ (List.mem_map_of_mem _ hmem)
    have hrem : remainingCount g [] < rankFuel g := by
      unfold remainingCount rankFuel
      have hle : (((univIds g)).filter (fun x => !(([] : List String).contains x))).length ≤
          (univIds g).length := List.length_filter_le _ _
      omega
    have h := dfsF_isSome g (rankFuel g) [] [] start hstart hrem
    cases hd : dfsF g (rankFuel g) [] [] start with
    | none => rw [hd] at h; simp at h
    | some pr =>
      obtain ⟨d, memo⟩ := pr
      simp [hd]

theorem pcLoopF_isSome (g : DotGraph) (targetId : String) (maxPaths maxSteps : Nat) :
    ∀ (fuel : Nat) (stack : List (String × List PathEnt × Nat)) (results : List (List PathEnt)),
      stackMeasure g.edges.length maxSteps stack < fuel →
      (pcLoopF g targetId maxPaths maxSteps fuel stack results).isSome = true := by
  intro fuel
  induction fuel with
  | zero => intro _ _ h; omega
  | succ fuel ih =>
    intro stack results hM
    unfold pcLoopF
    by_cases hfull : results.length ≥ maxPaths
    · rw [if_pos hfull]; simp
    · rw [if_neg hfull]
      split
      · simp
      · rename_i nid path steps rest
        have hw1 : 1 ≤ stackWeight g.edges.length maxSteps (nid, path, steps) := by
          unfold stackWeight
          exact Nat.one_le_pow _ _ (by omega)
        have hMsplit : stackMeasure g.edges.length maxSteps ((nid, path, steps) :: rest) =
            stackWeight g.edges.length maxSteps (nid, path, steps) +
            stackMeasure g.edges.length maxSteps rest := by
          unfold stackMeasure
          simp
        have hMrest : stackMeasure g.edges.length maxSteps rest < fuel := by
          rw [hMsplit] at hM
          omega
        split
        · exact ih rest results hMrest
        · rename_i hsteps
          split
          · exact ih rest results hMrest
          · split
            · exact ih rest (results ++ [path]) hMrest
            · apply ih
              have hpushW : ∀ x ∈ (outEdges g nid).filterMap (fun e =>
                  match getNode g e.dst with
                  | none => none
                  | some nn => some (e.dst, path ++ [⟨nn.label, e.label⟩], steps + 1)),
                  stackWeight g.edges.length maxSteps x =
                    (g.edges.length + 1) ^ (maxSteps - steps) := by
                intro x hx
                obtain ⟨e, he, hfe⟩ := List.mem_filterMap.mp hx
                have hx3 : x.2.2 = steps + 1 := by
                  cases hge : getNode g e.dst with
                  | none => rw [hge] at hfe; cases hfe
                  | some nn =>
                    rw [hge] at hfe
                    cases hfe
                    rfl
                unfold stackWeight
                rw [hx3]
                congr 1
                omega
              have hpushLen : ((outEdges g nid).filterMap (fun e =>
                  match getNode g e.dst with
                  | none => none
                  | some nn => some (e.dst, path ++ [⟨nn.label, e.label⟩], steps + 1))).length ≤
                  g.edges.length := by
                calc ((outEdges g nid).filterMap _).length ≤ (outEdges g nid).length :=
                      List.length_filterMap_le _ _
                  _ ≤ g.edges.length := List.length_filter_le _ _
              have hsum : stackMeasure g.edges.length maxSteps ((outEdges g nid).filterMap (fun e =>
                  match getNode g e.dst with
                  | none => none
                  | some nn => some (e.dst, path ++ [⟨nn.label, e.label⟩], steps + 1))) ≤
                  g.edges.length * (g.edges.length + 1) ^ (maxSteps - steps) := by
                unfold stackMeasure
                calc (List.map (stackWeight g.edges.length maxSteps) _).sum
                    ≤ (List.map (stackWeight g.edges.length maxSteps) _).length *
                      ((g.edges.length + 1) ^ (maxSteps - steps)) := by
                      apply List.sum_le_card_nsmul
                      intro x hx
                      obtain ⟨y, hy, hyx⟩ := List.mem_map.mp hx
                      rw [← hyx, hpushW y hy]
                  _ ≤ g.edges.length * (g.edges.length + 1) ^ (maxSteps - steps) := by
                      rw [List.length_map]
                      exact Nat.mul_le_mul_right _ hpushLen
              have hW : stackWeight g.edges.length maxSteps (nid, path, steps) =
                  g.edges.length * (g.edges.length + 1) ^ (maxSteps - steps) +
                  (g.edges.length + 1) ^ (maxSteps - steps) := by
                unfold stackWeight
                have hexp : maxSteps + 1 - steps = (maxSteps - steps) + 1 := by omega
                rw [hexp, pow_succ]
                ring
              have hc1 : 1 ≤ (g.edges.length + 1) ^ (maxSteps - steps) :=
                Nat.one_le_pow _ _ (by omega)
              have hMapp : stackMeasure g.edges.length maxSteps (((outEdges g nid).filterMap (fun e =>
                  match getNode g e.dst with
                  | none => none
                  | some nn => some (e.dst, path ++ [⟨nn.label, e.label⟩], steps + 1))) ++ rest) =
                  stackMeasure g.edges.length maxSteps ((outEdges g nid).filterMap (fun e =>
                  match getNode g e.dst with
                  | none => none
                  | some nn => some (e.dst, path ++ [⟨nn.label, e.label⟩], steps + 1))) +
                  stackMeasure g.edges.length maxSteps rest := by
                unfold stackMeasure
                simp
              rw [hMapp]
              rw [hMsplit] at hM
              rw [hW] at hM
              omega

theorem pathConstraintsF_isSome (g : DotGraph) (target_label : String)
    (maxPaths maxSteps : Nat) :
    (pathConstraintsF g target_label maxPaths maxSteps (pcFuel g maxSteps)).isSome = true := by
  unfold pathConstraintsF
  cases hs : getStartNodeId g with
  | none => simp
  | some start =>
    cases ht : findNodeIdByLabel g target_label with
    | none => simp
    | some targetId =>
      have hM : stackMeasure g.edges.length maxSteps [(start, [], 0)] < pcFuel g maxSteps := by
        unfold stackMeasure stackWeight pcFuel
        simp
      have h := pcLoopF_isSome g targetId maxPaths maxSteps (pcFuel g maxSteps)
        [(start, [], 0)] [] hM
      cases hp : pcLoopF g targetId maxPaths maxSteps (pcFuel g maxSteps) [(start, [], 0)] [] with
      | none => rw [hp] at h; simp at h
      | some res => simp [hp]

/-- Claim C8: for every finite graph, cyclic graphs included, both depth
ranking and path-constraint extraction terminate and return a result: the
fuelled embeddings complete within the computable bounds rankFuel (the
visiting-set guard makes an active back-edge contribute zero depth, so the
recursion depth is bounded by the number of node identifiers) and pcFuel
(the per-path max_steps bound and the max_paths result bound cap the
explicit-stack search). -/
theorem claim_c8_termination (g : DotGraph) (target_label : String)
    (maxPaths maxSteps : Nat) :
    (∃ res, rankedTablesF g (rankFuel g) = some res) ∧
    (∃ res, pathConstraintsF g target_label maxPaths maxSteps (pcFuel g maxSteps) = some res) :=
  ⟨Option.isSome_iff_exists.mp (rankedTablesF_isSome g),
   Option.isSome_iff_exists.mp (pathConstraintsF_isSome g target_label maxPaths maxSteps)⟩
